import Mathlib

/-!
Verification development for the TabPFNApproach repository.

The Lean definitions below are shallow embeddings of the repository's
Python functions.  DataFrame cells are modelled as `Option ℚ` where a
`none` stands for pandas `NaN` (missing value); dates of a monthly
`DatetimeIndex` are modelled as integers (months on a linear scale,
so that adding `h` months is integer addition); account / column names
are `String`s.  Functions that can raise are `Option`- or
`Except`-valued.
-/

namespace TabPFN

/-! ### Pandas-like list primitives -/

/-- Mean of a pandas Series with missing values: `Series.mean()` skips
`NaN` entries and returns `NaN` when no entry remains. -/
def npMean (xs : List (Option ℚ)) : Option ℚ :=
  let vs := xs.filterMap id
  if vs.isEmpty then none else some (vs.sum / vs.length)

/-- Python slice `l[-n:]` (used by `df.iloc[-n:]`): for `n = 0` the
slice `l[-0:]` is `l[0:]`, i.e. the whole list; for `n > 0` it is the
last `min n (length l)` elements. -/
def pyNegSlice (n : Nat) (l : List α) : List α :=
  if n = 0 then l else l.drop (l.length - n)

/-- Pandas `df.tail(n)`: the last `min n (length l)` rows; `tail 0` is
empty (unlike the Python slice `l[-0:]`). -/
def pdTail (n : Nat) (l : List α) : List α :=
  l.drop (l.length - n)

end TabPFN

namespace TabPFN

/-! ### src/metrics/compute_metrics.py

Metrics operate on a pair of wide DataFrames with the same account
columns and the same dates.  We represent such a DataFrame
column-major: `cols` are the account names, `data` holds one value
series per account (the claims under scrutiny concern numeric frames,
so series cells are plain `ℚ`).  Pandas aligns the two frames by labels;
for equal labels in equal order that alignment is positional, which is
what the embedding implements and the theorems assume. -/

/-- Wide-format DataFrame used by the metric functions, column-major. -/
structure MetricsDF where
  cols : List String
  data : List (List ℚ)
  deriving Repr, DecidableEq

/-- One column of `compute_mape_df`: the mask is `|actual| > eps`,
`percentage_errors` is `|forecast - actual| / |actual|.where(mask)`
(a `NaN` wherever the mask is false), then `.mean(axis=0) * 100` with
pandas NaN-skipping mean. -/
def mapeCol (eps : ℚ) (a f : List ℚ) : Option ℚ :=
  let pe : List (Option ℚ) :=
    (a.zip f).map (fun p => if eps < |p.1| then some (|p.2 - p.1| / |p.1|) else none)
  (npMean pe).map (fun m => m * 100)

/-- Embedding of `compute_mape_df` (compute_metrics.py lines 20-65). -/
def compute_mape_df (actual forecast : MetricsDF) (eps : ℚ) : List (String × Option ℚ) :=
  actual.cols.zip ((actual.data.zip forecast.data).map (fun p => mapeCol eps p.1 p.2))

/-- One column of `compute_pbias_df`: numerator is the absolute value
of the summed signed error `(forecast - actual).sum().abs()`,
denominator the sum of `|actual|` with `0` replaced by `NaN`. -/
def pbiasCol (a f : List ℚ) : Option ℚ :=
  let num := |((f.zip a).map (fun p => p.1 - p.2)).sum|
  let den := (a.map (fun x => |x|)).sum
  if den = 0 then none else some (num / den * 100)

/-- Embedding of `compute_pbias_df` (compute_metrics.py lines 293-334). -/
def compute_pbias_df (actual forecast : MetricsDF) : List (String × Option ℚ) :=
  actual.cols.zip ((actual.data.zip forecast.data).map (fun p => pbiasCol p.1 p.2))

/-! ### General list lemmas used to relate the embeddings to the
per-time-point formulas of the specification -/

theorem getD_range_map {α : Type} (l : List α) (d : α) :
    (List.range l.length).map (fun t => l.getD t d) = l := by
  induction l with
  | nil => rfl
  | cons x xs ih =>
    rw [List.length_cons, List.range_succ_eq_map, List.map_cons, List.map_map]
    rw [show ((fun t => (x :: xs).getD t d) ∘ Nat.succ) = (fun t => xs.getD t d) from
      funext (fun t => List.getD_cons_succ)]
    rw [ih]
    rfl

theorem zip_eq_range_map {α β : Type} (a : List α) (f : List β) (da : α) (db : β)
    (h : a.length = f.length) :
    a.zip f = (List.range a.length).map (fun t => (a.getD t da, f.getD t db)) := by
  induction a generalizing f with
  | nil => simp
  | cons x xs ih =>
    cases f with
    | nil => simp at h
    | cons y ys =>
      rw [List.zip_cons_cons, List.length_cons, List.range_succ_eq_map, List.map_cons,
        List.map_map]
      rw [show ((fun t => ((x :: xs).getD t da, (y :: ys).getD t db)) ∘ Nat.succ) =
          (fun t => (xs.getD t da, ys.getD t db)) from
        funext (fun t => by simp [List.getD_cons_succ])]
      rw [ih ys (by simpa using h)]
      rfl

theorem filterMap_ite {α β : Type} (p : α → Prop) [DecidablePred p] (g : α → β)
    (l : List α) :
    l.filterMap (fun t => if p t then some (g t) else none) =
      (l.filter (fun t => p t)).map g := by
  induction l with
  | nil => rfl
  | cons x xs ih =>
    by_cases h : p x <;> simp [List.filterMap_cons, h, ih]

/-! ### Per-column characterisations of the metric formulas -/

/-- One column of MAPE equals the specification formula: the mean, over
exactly the time points `t` with `|actual t| > eps`, of
`|forecast t - actual t| / |actual t|`, times 100; `NaN` when no time
point passes the mask. -/
theorem mapeCol_eq_spec (eps : ℚ) (a f : List ℚ) (h : a.length = f.length) :
    mapeCol eps a f =
      (let valid := (List.range a.length).filter (fun t => eps < |a.getD t 0|)
       if valid = [] then none
       else some (100 *
         ((valid.map (fun t => |f.getD t 0 - a.getD t 0| / |a.getD t 0|)).sum /
           valid.length))) := by
  unfold mapeCol npMean
  rw [zip_eq_range_map a f 0 0 h, List.map_map]
  dsimp only
  rw [show ((fun p : ℚ × ℚ => if eps < |p.1| then some (|p.2 - p.1| / |p.1|) else none) ∘
      (fun t => (a.getD t 0, f.getD t 0))) =
      (fun t => if eps < |a.getD t 0| then some (|f.getD t 0 - a.getD t 0| / |a.getD t 0|)
        else none) from funext (fun t => rfl)]
  rw [List.filterMap_map, Function.id_comp]
  rw [filterMap_ite (fun t => eps < |a.getD t 0|)
    (fun t => |f.getD t 0 - a.getD t 0| / |a.getD t 0|) (List.range a.length)]
  simp only [List.isEmpty_iff, List.map_eq_nil_iff, List.length_map]
  by_cases hv : (List.range a.length).filter (fun t => eps < |a.getD t 0|) = []
  · rw [if_pos hv, if_pos hv]
    rfl
  · rw [if_neg hv, if_neg hv, Option.map_some', mul_comm]

/-- One column of PBIAS equals 100 times the absolute value of the
summed signed error, divided by the sum of absolute actuals, and is
`NaN` exactly when that denominator is zero. -/
theorem pbiasCol_eq_spec (a f : List ℚ) (h : a.length = f.length) :
    pbiasCol a f =
      (let den := ((List.range a.length).map (fun t => |a.getD t 0|)).sum
       if den = 0 then none
       else some (100 *
         |((List.range a.length).map (fun t => f.getD t 0 - a.getD t 0)).sum| / den)) := by
  unfold pbiasCol
  dsimp only
  rw [zip_eq_range_map f a 0 0 h.symm, List.map_map, ← h]
  rw [show ((fun p : ℚ × ℚ => p.1 - p.2) ∘ (fun t => (f.getD t 0, a.getD t 0))) =
      (fun t => f.getD t 0 - a.getD t 0) from funext (fun t => rfl)]
  rw [show a.map (fun x => |x|) = (List.range a.length).map (fun t => |a.getD t 0|) by
    conv_lhs => rw [← getD_range_map a 0]
    rw [List.map_map]
    rfl]
  by_cases hd : ((List.range a.length).map (fun t => |a.getD t 0|)).sum = 0
  · rw [if_pos hd, if_pos hd]
  · rw [if_neg hd, if_neg hd]
    rw [div_mul_eq_mul_div, mul_comm]

/-- C2: `compute_mape_df` returns, per account column, 100 times the
mean over exactly those time points where `|actual| > eps` of
`|forecast - actual| / |actual|`, and `NaN` for an account whose
actual values are all at most `eps` in absolute value. -/
theorem compute_mape_df_matches_claim (actual forecast : MetricsDF) (eps : ℚ)
    (heps : 0 < eps) (hcols : actual.cols = forecast.cols)
    (hdata : actual.data.length = forecast.data.length)
    (hlen : ∀ p ∈ actual.data.zip forecast.data, p.1.length = p.2.length) :
    compute_mape_df actual forecast eps =
      actual.cols.zip ((actual.data.zip forecast.data).map (fun p =>
        let valid := (List.range p.1.length).filter (fun t => eps < |p.1.getD t 0|)
        if valid = [] then none
        else some (100 *
          ((valid.map (fun t => |p.2.getD t 0 - p.1.getD t 0| / |p.1.getD t 0|)).sum /
            (valid.length : ℚ))))) ∧
    (∀ p ∈ actual.data.zip forecast.data, (∀ x ∈ p.1, |x| ≤ eps) →
      mapeCol eps p.1 p.2 = none) := by
  constructor
  · unfold compute_mape_df
    exact congrArg actual.cols.zip
      (List.map_congr_left (fun p hp => mapeCol_eq_spec eps p.1 p.2 (hlen p hp)))
  · intro p hp hbelow
    unfold mapeCol npMean
    dsimp only
    rw [List.filterMap_map, Function.id_comp]
    rw [show (p.1.zip p.2).filterMap
        (fun q : ℚ × ℚ => if eps < |q.1| then some (|q.2 - q.1| / |q.1|) else none) = [] from
      List.filterMap_eq_nil_iff.mpr (fun q hq => by
        rw [if_neg (not_lt.mpr (hbelow q.1 (List.of_mem_zip hq).1))])]
    rfl

/-- Witness for C2: the MAPE characterisation instantiated at a
concrete one-account, three-month frame with `eps = 1`. -/
theorem compute_mape_df_matches_claim_witness :
    (0:ℚ) < 1 ∧
    (compute_mape_df ⟨["707000"], [[100, 200, 150]]⟩ ⟨["707000"], [[110, 190, 160]]⟩ 1 =
      (["707000"] : List String).zip
        ((([[100, 200, 150]] : List (List ℚ)).zip ([[110, 190, 160]] : List (List ℚ))).map
          (fun p =>
            let valid := (List.range p.1.length).filter (fun t => (1:ℚ) < |p.1.getD t 0|)
            if valid = [] then none
            else some (100 *
              ((valid.map (fun t => |p.2.getD t 0 - p.1.getD t 0| / |p.1.getD t 0|)).sum /
                (valid.length : ℚ)))))) :=
  ⟨by norm_num,
    (compute_mape_df_matches_claim ⟨["707000"], [[100, 200, 150]]⟩
      ⟨["707000"], [[110, 190, 160]]⟩ 1 (by norm_num) rfl rfl
      (by intro p hp; simp only [List.zip_cons_cons, List.zip_nil_right, List.mem_singleton] at hp;
          subst hp; rfl)).1⟩

/-- C3 (counterexample): with a single account whose actual value is
100 and whose forecast is 50 the forecast under-predicts in aggregate,
so the standard signed Percent Bias is `100 * (50 - 100) / 100 = -50`;
`compute_pbias_df`, however, returns `+50` because it takes the
absolute value of the summed error, so it is not the signed metric the
claim describes. -/
theorem compute_pbias_df_cex :
    compute_pbias_df ⟨["707000"], [[100]]⟩ ⟨["707000"], [[50]]⟩ = [("707000", some 50)] ∧
    (100 * ((50:ℚ) - 100) / 100 = -50) ∧ ((50:ℚ) ≠ -50) := by
  refine ⟨?_, by norm_num, by norm_num⟩
  show [("707000", pbiasCol [100] [50])] = [("707000", some 50)]
  unfold pbiasCol
  norm_num

/-- C3 (amended): `compute_pbias_df` returns, per account, the
absolute Percent Bias `100 * |sum (forecast - actual)| / sum |actual|`
— a nonnegative metric — and `NaN` when the sum of absolute actuals is
zero. -/
theorem compute_pbias_df_absolute (actual forecast : MetricsDF)
    (hcols : actual.cols = forecast.cols)
    (hdata : actual.data.length = forecast.data.length)
    (hlen : ∀ p ∈ actual.data.zip forecast.data, p.1.length = p.2.length) :
    compute_pbias_df actual forecast =
      actual.cols.zip ((actual.data.zip forecast.data).map (fun p =>
        let den := ((List.range p.1.length).map (fun t => |p.1.getD t 0|)).sum
        if den = 0 then none
        else some (100 *
          |((List.range p.1.length).map (fun t => p.2.getD t 0 - p.1.getD t 0)).sum| /
            den))) ∧
    (∀ s v, (s, v) ∈ compute_pbias_df actual forecast → ∀ q, v = some q → 0 ≤ q) := by
  constructor
  · exact congrArg actual.cols.zip
      (List.map_congr_left (fun p hp => pbiasCol_eq_spec p.1 p.2 (hlen p hp)))
  · intro s v hmem q hq
    have hv : v ∈ (actual.data.zip forecast.data).map (fun p => pbiasCol p.1 p.2) :=
      (List.of_mem_zip hmem).2
    obtain ⟨p, hp, hpv⟩ := List.mem_map.mp hv
    rw [← hpv] at hq
    unfold pbiasCol at hq
    by_cases hd : (p.1.map (fun x => |x|)).sum = 0
    · rw [if_pos hd] at hq
      exact absurd hq (by simp)
    · rw [if_neg hd] at hq
      have hden : (0:ℚ) ≤ (p.1.map (fun x => |x|)).sum :=
        List.sum_nonneg (fun x hx => by
          obtain ⟨y, _, hy⟩ := List.mem_map.mp hx
          rw [← hy]; exact abs_nonneg y)
      have hq' : q = |((p.2.zip p.1).map (fun q => q.1 - q.2)).sum| /
          (p.1.map (fun x => |x|)).sum * 100 := (Option.some.inj hq).symm
      rw [hq']
      exact mul_nonneg (div_nonneg (abs_nonneg _) hden) (by norm_num)

/-- Witness for the amended C3 at a concrete one-account frame. -/
theorem compute_pbias_df_absolute_witness :
    (compute_pbias_df ⟨["707000"], [[100]]⟩ ⟨["707000"], [[50]]⟩ =
      (["707000"] : List String).zip
        ((([[100]] : List (List ℚ)).zip ([[50]] : List (List ℚ))).map (fun p =>
          let den := ((List.range p.1.length).map (fun t => |p.1.getD t 0|)).sum
          if den = 0 then none
          else some (100 *
            |((List.range p.1.length).map (fun t => p.2.getD t 0 - p.1.getD t 0)).sum| /
              den)))) :=
  (compute_pbias_df_absolute ⟨["707000"], [[100]]⟩ ⟨["707000"], [[50]]⟩ rfl rfl
    (by intro p hp; simp only [List.zip_cons_cons, List.zip_nil_right, List.mem_singleton] at hp;
        subst hp; rfl)).1

/-! ### src/metrics/seasonal_naive.py

A historical DataFrame is modelled row-major: `dates` is the
DatetimeIndex (months on a linear integer scale, so that
`pd.DateOffset(months=h)` is `+ h`), `rows` holds one list of account
values per date. -/

/-- Wide-format historical DataFrame with a monthly DatetimeIndex. -/
structure HistDF where
  dates : List ℤ
  cols : List String
  rows : List (List ℚ)
  deriving Repr, DecidableEq

/-- Embedding of `generate_seasonal_naive` (seasonal_naive.py lines
10-70): raise `ValueError` when there are fewer rows than
`forecast_horizon`, otherwise take `iloc[-forecast_horizon:]` and add
`forecast_horizon` months to each index date. -/
def generate_seasonal_naive (hist : HistDF) (forecast_horizon : Nat) :
    Except String HistDF :=
  if hist.rows.length < forecast_horizon then
    .error ("Historical data must have at least " ++ toString forecast_horizon ++
      " rows, got " ++ toString hist.rows.length)
  else
    .ok { dates := (pyNegSlice forecast_horizon hist.dates).map
            (fun d => d + (forecast_horizon : ℤ)),
          cols := hist.cols,
          rows := pyNegSlice forecast_horizon hist.rows }

/-- C4 (counterexample): with `forecast_horizon = 0` and a one-row
history, no `ValueError` is raised (0 > 1 rows is false) and
`iloc[-0:]` is the whole frame, so the function returns the single
historical row unshifted instead of the empty frame made of the last
0 rows; the claim's "exactly the last forecast_horizon rows" fails. -/
theorem generate_seasonal_naive_cex :
    generate_seasonal_naive ⟨[0], ["707000"], [[5]]⟩ 0 =
      .ok ⟨[0], ["707000"], [[5]]⟩ ∧
    pdTail 0 ([0] : List ℤ) = [] ∧
    (⟨[0], ["707000"], [[5]]⟩ : HistDF) ≠ ⟨[], ["707000"], []⟩ := by
  refine ⟨rfl, rfl, ?_⟩
  intro hcontra
  exact absurd (congrArg HistDF.dates hcontra) (by simp)

/-- C4 (amended): for every positive `forecast_horizon`,
`generate_seasonal_naive` raises `ValueError` if and only if the
history has fewer rows than `forecast_horizon`; otherwise it returns
exactly the last `forecast_horizon` rows, values unchanged, with every
index date shifted forward by `forecast_horizon` months. -/
theorem generate_seasonal_naive_correct (hist : HistDF) (h : Nat) (hpos : 1 ≤ h)
    (hwf : hist.dates.length = hist.rows.length) :
    ((∃ e, generate_seasonal_naive hist h = .error e) ↔ hist.rows.length < h) ∧
    (h ≤ hist.rows.length →
      generate_seasonal_naive hist h = .ok
        { dates := (hist.dates.drop (hist.dates.length - h)).map (fun d => d + (h : ℤ)),
          cols := hist.cols,
          rows := hist.rows.drop (hist.rows.length - h) }) := by
  have hne : h ≠ 0 := by omega
  constructor
  · constructor
    · intro ⟨e, he⟩
      by_contra hge
      unfold generate_seasonal_naive at he
      rw [if_neg hge] at he
      exact absurd he (by simp)
    · intro hlt
      exact ⟨_, by unfold generate_seasonal_naive; rw [if_pos hlt]⟩
  · intro hge
    unfold generate_seasonal_naive pyNegSlice
    rw [if_neg (not_lt.mpr hge), if_neg hne, if_neg hne, hwf]

/-- Witness for the amended C4: three months of history, horizon 2. -/
theorem generate_seasonal_naive_correct_witness :
    generate_seasonal_naive ⟨[0, 1, 2], ["707000"], [[10], [20], [30]]⟩ 2 = .ok
      { dates := (([0, 1, 2] : List ℤ).drop (([0, 1, 2] : List ℤ).length - 2)).map
          (fun d => d + (2 : ℤ)),
        cols := ["707000"],
        rows := ([[10], [20], [30]] : List (List ℚ)).drop
          (([[10], [20], [30]] : List (List ℚ)).length - 2) } :=
  (generate_seasonal_naive_correct ⟨[0, 1, 2], ["707000"], [[10], [20], [30]]⟩ 2
    (by decide) rfl).2 (by decide)

/-! ### src/forecasting/company_discovery.py -/

/-- Embedding of `filter_companies` (company_discovery.py lines
75-119): `None` or an empty selection returns the full list, a fully
valid selection is returned as given, and any unknown selected company
raises `ValueError`. -/
def filter_companies (all_companies : List String) (selected : Option (List String)) :
    Except String (List String) :=
  match selected with
  | none => .ok all_companies
  | some sel =>
    if sel.isEmpty then .ok all_companies
    else
      let invalid := sel.filter (fun c => !(all_companies.contains c))
      if invalid.isEmpty then .ok sel
      else .error ("Company(ies) not found: " ++ String.intercalate ", " invalid ++
        ". Available companies: " ++ String.intercalate ", " all_companies)

/-- C10: `filter_companies` returns the full list for a `None` or
empty selection, returns a fully valid selection as given (in order),
and raises `ValueError` exactly when some selected company is not in
the available list. -/
theorem filter_companies_correct (all_companies : List String)
    (selected : Option (List String)) :
    (selected = none ∨ selected = some [] →
      filter_companies all_companies selected = .ok all_companies) ∧
    (∀ sel, selected = some sel → sel ≠ [] → (∀ c ∈ sel, c ∈ all_companies) →
      filter_companies all_companies selected = .ok sel) ∧
    ((∃ e, filter_companies all_companies selected = .error e) ↔
      ∃ c ∈ selected.getD [], c ∉ all_companies) := by
  refine ⟨?_, ?_, ?_⟩
  · rintro (rfl | rfl)
    · rfl
    · rfl
  · rintro sel rfl hne hvalid
    cases sel with
    | nil => exact absurd rfl hne
    | cons x xs =>
      simp only [filter_companies]
      rw [if_neg (by simp)]
      rw [if_pos (by
        simp only [List.isEmpty_iff, List.filter_eq_nil_iff]
        intro c hc
        simp [hvalid c hc])]
  · cases selected with
    | none => simp [filter_companies]
    | some sel =>
      cases sel with
      | nil => simp [filter_companies]
      | cons x xs =>
        simp only [filter_companies]
        rw [if_neg (by simp)]
        by_cases hinv : ((x :: xs).filter (fun c => !(all_companies.contains c))).isEmpty
        · rw [if_pos hinv]
          simp only [List.isEmpty_iff, List.filter_eq_nil_iff] at hinv
          simp only [Option.getD_some]
          constructor
          · rintro ⟨e, he⟩
            exact absurd he (by simp)
          · rintro ⟨c, hc, hnotin⟩
            have := hinv c hc
            simp at this
            exact absurd this hnotin
        · rw [if_neg hinv]
          simp only [List.isEmpty_iff, List.filter_eq_nil_iff] at hinv
          push_neg at hinv
          obtain ⟨c, hc, hbad⟩ := hinv
          simp only [Option.getD_some]
          refine ⟨fun _ => ⟨c, hc, ?_⟩, fun _ => ⟨_, rfl⟩⟩
          simpa using hbad

/-- Witness for C10: a valid one-company selection out of two. -/
theorem filter_companies_correct_witness :
    filter_companies ["RESTO - 1", "RESTO - 2"] (some ["RESTO - 2"]) =
      .ok ["RESTO - 2"] :=
  (filter_companies_correct ["RESTO - 1", "RESTO - 2"] (some ["RESTO - 2"])).2.1
    ["RESTO - 2"] rfl (by decide) (by decide)

/-! ### src/forecasting/batch_processor.py

`BatchProcessor.process_company` wraps an I/O pipeline — load company
info, load FEC files, preprocess, forecast, save, update metadata — in
one `try`/`except Exception`.  The pipeline steps involve file I/O and
an external forecasting model, so each step is a parameter of the
embedding, an `Except`-valued outcome with `.error` standing for the
step raising an exception.  The control flow between the steps and the
construction of the result dicts is translated from the source. -/

/-- Outcome of `TabPFNForecaster.forecast` (accounts forecasted and
elapsed time; confidence-interval frames influence only which saver
runs, folded into the `saveResult` step). -/
structure ForecastOutcome where
  accounts : List String
  elapsedTime : ℚ
  deriving Repr

/-- Outcomes of the pipeline steps of one `process_company` call. -/
structure ProcessEnv where
  getCompanyInfo : Except String Unit
  loadFecs : Except String Unit
  preprocess : Except String (List String)
  runForecast : Except String ForecastOutcome
  saveResult : Except String Unit
  updateMetadata : Except String Unit

/-- Result dict of `process_company`; a `none` field models an absent
dict key. -/
structure ProcessResult where
  company_id : String
  process_id : Option String
  status : String
  accounts_forecasted : Nat
  elapsed_time : Option ℚ
  deriving Repr, DecidableEq

/-- Embedding of `BatchProcessor.process_company` (batch_processor.py
lines 67-176): the `try` body in sequence, with the `except Exception`
handler producing the error dict. -/
def process_company (env : ProcessEnv) (company_id : String)
    (new_process_id : String) : ProcessResult :=
  let attempt : Except String ProcessResult :=
    match env.getCompanyInfo with
    | .error e => .error e
    | .ok _ =>
      match env.loadFecs with
      | .error e => .error e
      | .ok _ =>
        match env.preprocess with
        | .error e => .error e
        | .ok forecastable =>
          if forecastable.length = 0 then
            .ok { company_id := company_id, process_id := none,
                  status := "No forecastable accounts",
                  accounts_forecasted := 0, elapsed_time := none }
          else
            match env.runForecast with
            | .error e => .error e
            | .ok fr =>
              match env.saveResult with
              | .error e => .error e
              | .ok _ =>
                match env.updateMetadata with
                | .error e => .error e
                | .ok _ =>
                  .ok { company_id := company_id,
                        process_id := some new_process_id,
                        status := "Success",
                        accounts_forecasted := fr.accounts.length,
                        elapsed_time := some fr.elapsedTime }
  match attempt with
  | .ok r => r
  | .error e =>
    { company_id := company_id, process_id := none, status := "Error: " ++ e,
      accounts_forecasted := 0, elapsed_time := none }

/-- Embedding of `BatchProcessor.process_companies` (batch_processor.py
lines 178-226): one `process_company` call per company id, results
collected in input order (`envs`/`pids` give each company its step
outcomes and generated process id). -/
def process_companies (envs : String → ProcessEnv) (pids : String → String)
    (company_ids : List String) : List ProcessResult :=
  company_ids.map (fun cid => process_company (envs cid) cid (pids cid))

/-- C5: `process_company` always returns a result dict whose status is
`Success`, `No forecastable accounts`, or an error message — with
`process_id` absent and `accounts_forecasted = 0` in the two non-success
cases.  Each status is tied to its trigger: whenever a step along the
executed path raises, the result is the error dict carrying that
step's message; when the steps up to preprocessing succeed and
preprocessing leaves no forecastable account, the result is the
`No forecastable accounts` dict; when every step succeeds (with at
least one forecastable account), the result is the `Success` dict with
the generated process id and the number of forecasted accounts.
`process_companies` returns one such result per input company, in
input order. -/
theorem process_company_never_propagates (envs : String → ProcessEnv)
    (pids : String → String) (company_ids : List String) :
    (∀ env cid pid,
      (process_company env cid pid).company_id = cid ∧
      ((process_company env cid pid).status = "Success" ∧
         (process_company env cid pid).process_id = some pid ∨
       (process_company env cid pid).status = "No forecastable accounts" ∧
         (process_company env cid pid).process_id = none ∧
         (process_company env cid pid).accounts_forecasted = 0 ∨
       (∃ e, (process_company env cid pid).status = "Error: " ++ e) ∧
         (process_company env cid pid).process_id = none ∧
         (process_company env cid pid).accounts_forecasted = 0) ∧
      (∀ e,
        (env.getCompanyInfo = .error e ∨
         env.getCompanyInfo = .ok () ∧ env.loadFecs = .error e ∨
         env.getCompanyInfo = .ok () ∧ env.loadFecs = .ok () ∧
           env.preprocess = .error e ∨
         (∃ accts, env.getCompanyInfo = .ok () ∧ env.loadFecs = .ok () ∧
           env.preprocess = .ok accts ∧ accts.length ≠ 0 ∧
           (env.runForecast = .error e ∨
            (∃ fr, env.runForecast = .ok fr ∧
              (env.saveResult = .error e ∨
               env.saveResult = .ok () ∧ env.updateMetadata = .error e))))) →
        process_company env cid pid =
          ⟨cid, none, "Error: " ++ e, 0, none⟩) ∧
      (∀ accts, env.getCompanyInfo = .ok () → env.loadFecs = .ok () →
        env.preprocess = .ok accts → accts.length = 0 →
        process_company env cid pid =
          ⟨cid, none, "No forecastable accounts", 0, none⟩) ∧
      (∀ accts fr, env.getCompanyInfo = .ok () → env.loadFecs = .ok () →
        env.preprocess = .ok accts → accts.length ≠ 0 →
        env.runForecast = .ok fr → env.saveResult = .ok () →
        env.updateMetadata = .ok () →
        process_company env cid pid =
          ⟨cid, some pid, "Success", fr.accounts.length, some fr.elapsedTime⟩)) ∧
    (process_companies envs pids company_ids).length = company_ids.length ∧
    (∀ i (hi : i < company_ids.length),
      (process_companies envs pids company_ids).get
          ⟨i, by simpa [process_companies] using hi⟩ =
        process_company (envs (company_ids.get ⟨i, hi⟩)) (company_ids.get ⟨i, hi⟩)
          (pids (company_ids.get ⟨i, hi⟩))) := by
  refine ⟨?_, by simp [process_companies], ?_⟩
  · intro env cid pid
    have hAB : (process_company env cid pid).company_id = cid ∧
        ((process_company env cid pid).status = "Success" ∧
           (process_company env cid pid).process_id = some pid ∨
         (process_company env cid pid).status = "No forecastable accounts" ∧
           (process_company env cid pid).process_id = none ∧
           (process_company env cid pid).accounts_forecasted = 0 ∨
         (∃ e, (process_company env cid pid).status = "Error: " ++ e) ∧
           (process_company env cid pid).process_id = none ∧
           (process_company env cid pid).accounts_forecasted = 0) := by
      unfold process_company
      rcases env.getCompanyInfo with e | u₁
      · exact ⟨rfl, Or.inr (Or.inr ⟨⟨e, rfl⟩, rfl, rfl⟩)⟩
      rcases env.loadFecs with e | u₂
      · exact ⟨rfl, Or.inr (Or.inr ⟨⟨e, rfl⟩, rfl, rfl⟩)⟩
      rcases env.preprocess with e | forecastable
      · exact ⟨rfl, Or.inr (Or.inr ⟨⟨e, rfl⟩, rfl, rfl⟩)⟩
      dsimp only
      by_cases hfc : forecastable.length = 0
      · rw [if_pos hfc]
        exact ⟨rfl, Or.inr (Or.inl ⟨rfl, rfl, rfl⟩)⟩
      rw [if_neg hfc]
      rcases env.runForecast with e | fr
      · exact ⟨rfl, Or.inr (Or.inr ⟨⟨e, rfl⟩, rfl, rfl⟩)⟩
      rcases env.saveResult with e | u₃
      · exact ⟨rfl, Or.inr (Or.inr ⟨⟨e, rfl⟩, rfl, rfl⟩)⟩
      rcases env.updateMetadata with e | u₄
      · exact ⟨rfl, Or.inr (Or.inr ⟨⟨e, rfl⟩, rfl, rfl⟩)⟩
      exact ⟨rfl, Or.inl ⟨rfl, rfl⟩⟩
    refine ⟨hAB.1, hAB.2, ?_, ?_, ?_⟩
    · intro e hcase
      rcases hcase with hgi | ⟨hgi, hlf⟩ | ⟨hgi, hlf, hpre⟩ |
        ⟨accts, hgi, hlf, hpre, hne, hrest⟩
      · unfold process_company
        rw [hgi]
      · unfold process_company
        rw [hgi, hlf]
      · unfold process_company
        rw [hgi, hlf, hpre]
      · rcases hrest with hrf | ⟨fr, hrf, hsv⟩
        · unfold process_company
          rw [hgi, hlf, hpre]
          dsimp only
          rw [if_neg hne, hrf]
        · rcases hsv with hsv | ⟨hsv, hum⟩
          · unfold process_company
            rw [hgi, hlf, hpre]
            dsimp only
            rw [if_neg hne, hrf, hsv]
          · unfold process_company
            rw [hgi, hlf, hpre]
            dsimp only
            rw [if_neg hne, hrf, hsv, hum]
    · intro accts hgi hlf hpre hlen0
      unfold process_company
      rw [hgi, hlf, hpre]
      dsimp only
      rw [if_pos hlen0]
    · intro accts fr hgi hlf hpre hne hrf hsv hum
      unfold process_company
      rw [hgi, hlf, hpre]
      dsimp only
      rw [if_neg hne, hrf, hsv, hum]
  · intro i hi
    simp [process_companies]

/-- Witness for C5: a pipeline whose preprocessing step raises turns
into an `Error:` result dict rather than an exception. -/
theorem process_company_never_propagates_witness :
    process_company
        { getCompanyInfo := .ok (), loadFecs := .ok (),
          preprocess := .error "missing company.json",
          runForecast := .ok ⟨["707000"], 1⟩, saveResult := .ok (),
          updateMetadata := .ok () } "RESTO - 1" "pid-1" =
      { company_id := "RESTO - 1", process_id := none,
        status := "Error: " ++ "missing company.json",
        accounts_forecasted := 0, elapsed_time := none } := by
  have h := ((process_company_never_propagates (fun _ =>
    { getCompanyInfo := .ok (), loadFecs := .ok (),
      preprocess := .error "missing company.json",
      runForecast := .ok ⟨["707000"], 1⟩, saveResult := .ok (),
      updateMetadata := .ok () }) (fun _ => "pid-1") ["RESTO - 1"]).1
    { getCompanyInfo := .ok (), loadFecs := .ok (),
      preprocess := .error "missing company.json",
      runForecast := .ok ⟨["707000"], 1⟩, saveResult := .ok (),
      updateMetadata := .ok () } "RESTO - 1" "pid-1").2.2.1
  exact h "missing company.json" (Or.inr (Or.inr (Or.inl ⟨rfl, rfl, rfl⟩)))

/-! ### src/metrics/result_loader.py

`load_gather_result` dispatches between a plain-CSV format and a
base64 + zlib + pickle format.  The byte-level decoders
(`base64.b64decode`'s full validation, `zlib.decompress`,
`pickle.loads`, `pd.read_csv`) are opaque library primitives, so they
are parameters of the embedding: `decodeB64Pickle` is the composite
decode chain, returning the decoded frame when every step succeeds and
the result is a DataFrame, `none` when any step raises or the object
is not a DataFrame; `readCsvDs` models
`pd.read_csv(..., parse_dates=['ds'], index_col='ds')`, which by
construction yields an index named `ds` — the theorem takes that as a
hypothesis on the parameter.  The `is_likely_base64` heuristic and the
dispatch control flow are translated from the source. -/

/-- DataFrame as seen by the result loader. -/
structure ResultDF where
  indexName : Option String
  cols : List String
  rows : List (List ℚ)
  deriving Repr, DecidableEq

/-- Error outcomes of `load_gather_result`. -/
inductive LoadErr where
  | fileNotFound : LoadErr
  | valueError : LoadErr
  deriving Repr, DecidableEq

/-- Lines 97-99 of result_loader.py: rename the index to `ds` when it
is named otherwise. -/
def set_index_name_ds (df : ResultDF) : ResultDF :=
  if df.indexName = some "ds" then df else { df with indexName := some "ds" }

/-- Embedding of `is_likely_base64` (result_loader.py lines 17-42): a
comma among the first 100 characters or a newline among the first 50
rules base64 out; otherwise the first 100 characters are test-decoded
(`validB64Prefix` standing for `base64.b64decode(..., validate=True)`
succeeding). -/
def is_likely_base64 (validB64Prefix : List Char → Bool) (content : List Char) : Bool :=
  if (content.take 100).contains ',' then false
  else if (content.take 50).contains '\n' then false
  else validB64Prefix (content.take 100)

/-- Embedding of `load_gather_result` (result_loader.py lines 45-113):
missing file raises `FileNotFoundError`; likely-base64 content is
decoded and returned with the index renamed to `ds` when the whole
chain produces a DataFrame, falling through to CSV parsing otherwise;
content that parses as neither raises `ValueError`. -/
def load_gather_result (decodeB64Pickle : List Char → Option ResultDF)
    (readCsvDs : List Char → Option ResultDF) (validB64Prefix : List Char → Bool)
    (file_content : Option (List Char)) : Except LoadErr ResultDF :=
  match file_content with
  | none => .error .fileNotFound
  | some content =>
    let viaB64 : Option ResultDF :=
      if is_likely_base64 validB64Prefix content then
        (decodeB64Pickle content).map set_index_name_ds
      else none
    match viaB64 with
    | some df => .ok df
    | none =>
      match readCsvDs content with
      | some df => .ok df
      | none => .error .valueError

theorem set_index_name_ds_names_ds (df : ResultDF) :
    (set_index_name_ds df).indexName = some "ds" := by
  unfold set_index_name_ds
  by_cases h : df.indexName = some "ds"
  · rw [if_pos h]; exact h
  · rw [if_neg h]

/-- C6: `load_gather_result` raises `FileNotFoundError` exactly when
the file is missing, returns a DataFrame whose index is named `ds`
whenever it succeeds, accepts content in the encoded format (via the
decode chain) and in CSV format (when the encoded path does not
apply), and raises `ValueError` when the content parses as neither. -/
theorem load_gather_result_correct (decodeB64Pickle : List Char → Option ResultDF)
    (readCsvDs : List Char → Option ResultDF) (validB64Prefix : List Char → Bool)
    (file_content : Option (List Char))
    (hcsv : ∀ c df, readCsvDs c = some df → df.indexName = some "ds") :
    (load_gather_result decodeB64Pickle readCsvDs validB64Prefix file_content =
        .error .fileNotFound ↔ file_content = none) ∧
    (∀ df, load_gather_result decodeB64Pickle readCsvDs validB64Prefix file_content =
        .ok df → df.indexName = some "ds") ∧
    (∀ c, file_content = some c → is_likely_base64 validB64Prefix c = true →
      ∀ df, decodeB64Pickle c = some df →
        load_gather_result decodeB64Pickle readCsvDs validB64Prefix file_content =
          .ok (set_index_name_ds df)) ∧
    (∀ c, file_content = some c →
      (is_likely_base64 validB64Prefix c = false ∨ decodeB64Pickle c = none) →
      ∀ df, readCsvDs c = some df →
        load_gather_result decodeB64Pickle readCsvDs validB64Prefix file_content =
          .ok df) ∧
    (∀ c, file_content = some c →
      (is_likely_base64 validB64Prefix c = false ∨ decodeB64Pickle c = none) →
      readCsvDs c = none →
        load_gather_result decodeB64Pickle readCsvDs validB64Prefix file_content =
          .error .valueError) := by
  cases file_content with
  | none =>
    refine ⟨by simp [load_gather_result], ?_, ?_, ?_, ?_⟩
    · intro df h
      exact absurd h (by simp [load_gather_result])
    · intro c h; exact absurd h (by simp)
    · intro c h; exact absurd h (by simp)
    · intro c h; exact absurd h (by simp)
  | some content =>
    by_cases hb : is_likely_base64 validB64Prefix content = true
    · cases hdec : decodeB64Pickle content with
      | some df0 =>
        have hload : load_gather_result decodeB64Pickle readCsvDs validB64Prefix
            (some content) = .ok (set_index_name_ds df0) := by
          unfold load_gather_result
          dsimp only
          rw [if_pos hb, hdec]
          rfl
        refine ⟨by simp [hload], ?_, ?_, ?_, ?_⟩
        · intro df h
          rw [hload] at h
          cases h
          exact set_index_name_ds_names_ds df0
        · intro c hc _ df hdf
          cases hc
          rw [hdec] at hdf
          cases hdf
          exact hload
        · intro c hc hor df hdf
          cases hc
          rcases hor with h | h
          · exact absurd hb (by simp [h])
          · rw [hdec] at h; cases h
        · intro c hc hor hn
          cases hc
          rcases hor with h | h
          · exact absurd hb (by simp [h])
          · rw [hdec] at h; cases h
      | none =>
        have hvia : load_gather_result decodeB64Pickle readCsvDs validB64Prefix
            (some content) =
            (match readCsvDs content with
             | some df => .ok df
             | none => .error .valueError) := by
          unfold load_gather_result
          dsimp only
          rw [if_pos hb, hdec]
          rfl
        cases hcsvres : readCsvDs content with
        | some df1 =>
          have hload := hvia.trans (by rw [hcsvres])
          refine ⟨by simp [hload], ?_, ?_, ?_, ?_⟩
          · intro df h
            rw [hload] at h
            cases h
            exact hcsv content df1 hcsvres
          · intro c hc _ df hdf
            cases hc
            rw [hdec] at hdf
            cases hdf
          · intro c hc _ df hdf
            cases hc
            rw [hcsvres] at hdf
            cases hdf
            exact hload
          · intro c hc _ hn
            cases hc
            rw [hcsvres] at hn
            cases hn
        | none =>
          have hload := hvia.trans (by rw [hcsvres])
          refine ⟨by simp [hload], ?_, ?_, ?_, ?_⟩
          · intro df h
            rw [hload] at h
            cases h
          · intro c hc _ df hdf
            cases hc
            rw [hdec] at hdf
            cases hdf
          · intro c hc _ df hdf
            cases hc
            rw [hcsvres] at hdf
            cases hdf
          · intro c hc _ _
            cases hc
            exact hload
    · have hb' : is_likely_base64 validB64Prefix content = false := by
        simpa using hb
      have hvia : load_gather_result decodeB64Pickle readCsvDs validB64Prefix
          (some content) =
          (match readCsvDs content with
           | some df => .ok df
           | none => .error .valueError) := by
        unfold load_gather_result
        dsimp only
        rw [if_neg (by simp [hb'])]
      cases hcsvres : readCsvDs content with
      | some df1 =>
        have hload := hvia.trans (by rw [hcsvres])
        refine ⟨by simp [hload], ?_, ?_, ?_, ?_⟩
        · intro df h
          rw [hload] at h
          cases h
          exact hcsv content df1 hcsvres
        · intro c hc hlb
          cases hc
          exact absurd hlb (by simp [hb'])
        · intro c hc _ df hdf
          cases hc
          rw [hcsvres] at hdf
          cases hdf
          exact hload
        · intro c hc _ hn
          cases hc
          rw [hcsvres] at hn
          cases hn
      | none =>
        have hload := hvia.trans (by rw [hcsvres])
        refine ⟨by simp [hload], ?_, ?_, ?_, ?_⟩
        · intro df h
          rw [hload] at h
          cases h
        · intro c hc hlb
          cases hc
          exact absurd hlb (by simp [hb'])
        · intro c hc _ df hdf
          cases hc
          rw [hcsvres] at hdf
          cases hdf
        · intro c hc _ _
          cases hc
          exact hload

/-- Witness for C6: a missing file with trivial decoders yields
`FileNotFoundError`. -/
theorem load_gather_result_correct_witness :
    load_gather_result (fun _ => none) (fun _ => none) (fun _ => false) none =
      .error .fileNotFound :=
  (load_gather_result_correct (fun _ => none) (fun _ => none) (fun _ => false) none
    (by intro c df h; exact absurd h (by simp))).1.mpr rfl

/-! ### src/forecasting/result_saver.py

`update_company_metadata` reads `company.json`, appends one forecast
version record, and writes the file back.  The embedding works on the
parsed JSON value (file reading, `json.loads` and `json.dumps` being
inverse serialisation); a JSON object is an ordered key/value list as
in a Python dict, with `lookupKey` the dict lookup and `setKey` the
dict assignment (replace in place, or append a new key at the end). -/

/-- Parsed JSON values. -/
inductive Json where
  | null : Json
  | bool (b : Bool) : Json
  | num (q : ℚ) : Json
  | str (s : String) : Json
  | arr (elems : List Json) : Json
  | obj (members : List (String × Json)) : Json

/-- Dict lookup on a parsed JSON object. -/
def lookupKey : List (String × Json) → String → Option Json
  | [], _ => none
  | (k, v) :: rest, key => if k = key then some v else lookupKey rest key

/-- Dict assignment on a parsed JSON object: replace the value of an
existing key in place, append a fresh key at the end. -/
def setKey : List (String × Json) → String → Json → List (String × Json)
  | [], key, v => [(key, v)]
  | (k, w) :: rest, key, v =>
    if k = key then (k, v) :: rest else (k, w) :: setKey rest key v

/-- Embedding of `update_company_metadata` (result_saver.py lines
139-202) on the parsed `company.json` object: build the forecast
version record, create the `forecast_versions` list when absent, and
append the record to it.  The result is `none` when the existing
`forecast_versions` value is not a list (Python's `.append` would
raise there). -/
def update_company_metadata (company_data : List (String × Json))
    (process_id : String) (account_metadata : Json)
    (version_name : String) (status : String) :
    Option (List (String × Json)) :=
  let forecast_version : Json := .obj [("version_name", .str version_name),
    ("process_id", .str process_id), ("status", .str status),
    ("meta_data", account_metadata)]
  match lookupKey company_data "forecast_versions" with
  | some (.arr xs) =>
    some (setKey company_data "forecast_versions" (.arr (xs ++ [forecast_version])))
  | some _ => none
  | none => some (company_data ++ [("forecast_versions", .arr [forecast_version])])

theorem lookupKey_setKey_self (l : List (String × Json)) (key : String) (v : Json) :
    lookupKey (setKey l key v) key = some v := by
  induction l with
  | nil => simp [setKey, lookupKey]
  | cons p rest ih =>
    obtain ⟨k, w⟩ := p
    by_cases hk : k = key
    · simp [setKey, lookupKey, hk]
    · simp [setKey, lookupKey, hk, ih]

theorem lookupKey_setKey_ne (l : List (String × Json)) (key k' : String) (v : Json)
    (hne : k' ≠ key) :
    lookupKey (setKey l key v) k' = lookupKey l k' := by
  induction l with
  | nil => simp [setKey, lookupKey, Ne.symm hne]
  | cons p rest ih =>
    obtain ⟨k, w⟩ := p
    by_cases hk : k = key
    · subst hk
      simp [setKey, lookupKey, Ne.symm hne]
    · simp [setKey, lookupKey, hk, ih]

theorem lookupKey_append_absent (l : List (String × Json)) (key : String) (v : Json)
    (habs : lookupKey l key = none) :
    lookupKey (l ++ [(key, v)]) key = some v := by
  induction l with
  | nil => simp [lookupKey]
  | cons p rest ih =>
    obtain ⟨k, w⟩ := p
    by_cases hk : k = key
    · simp [lookupKey, hk] at habs
    · simp only [lookupKey, if_neg hk] at habs
      simp [lookupKey, hk, ih habs]

theorem lookupKey_append_ne (l : List (String × Json)) (key k' : String) (v : Json)
    (hne : k' ≠ key) :
    lookupKey (l ++ [(key, v)]) k' = lookupKey l k' := by
  induction l with
  | nil => simp [lookupKey, Ne.symm hne]
  | cons p rest ih =>
    obtain ⟨k, w⟩ := p
    by_cases hk : k = k'
    · simp [lookupKey, hk]
    · simp [lookupKey, hk, ih]

/-- C8: `update_company_metadata` appends exactly one record — with
fields `version_name`, `process_id`, `status` and `meta_data` — to the
`forecast_versions` list of the company object (creating the list if
absent), and the value of every other key, including the accounting
cutoff date, is unchanged; previously recorded forecast versions stay
in place ahead of the new record. -/
theorem update_company_metadata_frame (company_data : List (String × Json))
    (process_id : String) (account_metadata : Json)
    (version_name : String) (status : String) (res : List (String × Json))
    (h : update_company_metadata company_data process_id account_metadata
      version_name status = some res) :
    lookupKey res "forecast_versions" =
      some (.arr ((match lookupKey company_data "forecast_versions" with
                   | some (.arr xs) => xs
                   | _ => []) ++
        [Json.obj [("version_name", .str version_name),
          ("process_id", .str process_id), ("status", .str status),
          ("meta_data", account_metadata)]])) ∧
    (∀ k, k ≠ "forecast_versions" → lookupKey res k = lookupKey company_data k) := by
  unfold update_company_metadata at h
  dsimp only at h
  cases hfv : lookupKey company_data "forecast_versions" with
  | none =>
    rw [hfv] at h
    cases h
    exact ⟨lookupKey_append_absent _ _ _ hfv,
      fun k hk => lookupKey_append_ne _ _ _ _ hk⟩
  | some j =>
    cases j with
    | arr xs =>
      rw [hfv] at h
      cases h
      exact ⟨lookupKey_setKey_self _ _ _,
        fun k hk => lookupKey_setKey_ne _ _ _ _ hk⟩
    | null => rw [hfv] at h; cases h
    | bool b => rw [hfv] at h; cases h
    | num q => rw [hfv] at h; cases h
    | str s => rw [hfv] at h; cases h
    | obj m => rw [hfv] at h; cases h

/-- Witness for C8: a company object holding a legal name, an
accounting cutoff date and one prior forecast version; the new record
is appended after the prior one and the cutoff date key is
untouched. -/
theorem update_company_metadata_frame_witness :
    lookupKey (setKey [("company_legal_name", Json.str "Restaurant Test 1"),
        ("accounting_up_to_date", Json.str "2024-12-31"),
        ("forecast_versions", Json.arr [Json.str "old-version"])]
        "forecast_versions"
        (Json.arr ([Json.str "old-version"] ++
          [Json.obj [("version_name", Json.str "TabPFN-v1.0"),
            ("process_id", Json.str "abc-123"), ("status", Json.str "Success"),
            ("meta_data", Json.obj [])]])))
      "forecast_versions" =
      some (Json.arr ((match lookupKey [("company_legal_name", Json.str "Restaurant Test 1"),
          ("accounting_up_to_date", Json.str "2024-12-31"),
          ("forecast_versions", Json.arr [Json.str "old-version"])] "forecast_versions" with
        | some (.arr xs) => xs
        | _ => []) ++
        [Json.obj [("version_name", Json.str "TabPFN-v1.0"),
          ("process_id", Json.str "abc-123"), ("status", Json.str "Success"),
          ("meta_data", Json.obj [])]])) ∧
    lookupKey (setKey [("company_legal_name", Json.str "Restaurant Test 1"),
        ("accounting_up_to_date", Json.str "2024-12-31"),
        ("forecast_versions", Json.arr [Json.str "old-version"])]
        "forecast_versions"
        (Json.arr ([Json.str "old-version"] ++
          [Json.obj [("version_name", Json.str "TabPFN-v1.0"),
            ("process_id", Json.str "abc-123"), ("status", Json.str "Success"),
            ("meta_data", Json.obj [])]])))
      "accounting_up_to_date" =
      lookupKey [("company_legal_name", Json.str "Restaurant Test 1"),
        ("accounting_up_to_date", Json.str "2024-12-31"),
        ("forecast_versions", Json.arr [Json.str "old-version"])] "accounting_up_to_date" := by
  have h := update_company_metadata_frame
    [("company_legal_name", Json.str "Restaurant Test 1"),
     ("accounting_up_to_date", Json.str "2024-12-31"),
     ("forecast_versions", Json.arr [Json.str "old-version"])]
    "abc-123" (Json.obj []) "TabPFN-v1.0" "Success" _ rfl
  exact ⟨h.1, h.2 "accounting_up_to_date" (by decide)⟩

/-! ### src/forecasting/data_converter.py

Wide frames are row-major: `dates` is the DatetimeIndex, `cells` one
row of `Option ℚ` values per date (a `none` is a `NaN`).  The long
TabPFN format is a list of `(timestamp, target, item_id)` rows plus
the column-name list that the source constructs explicitly.
`pandas.DataFrame.pivot` sorts its index and column labels and places
each long row's value at its `(timestamp, item_id)` cell, raising on
duplicate pairs; `sortDedup` below is that sorted-unique-labels
operation. -/

/-- One row of the long TabPFN format. -/
structure LongRow where
  timestamp : ℤ
  target : Option ℚ
  item_id : String
  deriving Repr, DecidableEq

/-- Long-format DataFrame (`timestamp`, `target`, `item_id`). -/
structure LongDF where
  cols : List String
  rows : List LongRow
  deriving Repr, DecidableEq

/-- Wide-format DataFrame, row-major. -/
structure WideDF where
  indexName : Option String
  dates : List ℤ
  cols : List String
  cells : List (List (Option ℚ))
  deriving Repr, DecidableEq

/-- Insert a label into a strictly sorted label list, keeping it
sorted and dropping duplicates. -/
def sortedInsert {α : Type} [LinearOrder α] (x : α) : List α → List α
  | [] => [x]
  | y :: ys => if x < y then x :: y :: ys else if y < x then y :: sortedInsert x ys else y :: ys

/-- Sorted unique labels of a list, as computed for a pivot axis. -/
def sortDedup {α : Type} [LinearOrder α] (l : List α) : List α :=
  l.foldr sortedInsert []

theorem mem_sortedInsert {α : Type} [LinearOrder α] (x a : α) (l : List α) :
    a ∈ sortedInsert x l ↔ a = x ∨ a ∈ l := by
  induction l with
  | nil => simp [sortedInsert]
  | cons y ys ih =>
    simp only [sortedInsert]
    rcases lt_trichotomy x y with hlt | heq | hgt
    · rw [if_pos hlt]
      simp [List.mem_cons]
    · rw [if_neg (heq ▸ lt_irrefl x), if_neg (heq ▸ lt_irrefl x)]
      subst heq
      simp only [List.mem_cons]
      tauto
    · rw [if_neg (asymm hgt), if_pos hgt]
      simp only [List.mem_cons, ih]
      tauto

theorem pairwise_sortedInsert {α : Type} [LinearOrder α] (x : α) (l : List α)
    (h : l.Pairwise (· < ·)) : (sortedInsert x l).Pairwise (· < ·) := by
  induction l with
  | nil => simp [sortedInsert]
  | cons y ys ih =>
    rcases List.pairwise_cons.mp h with ⟨hy, hys⟩
    simp only [sortedInsert]
    rcases lt_trichotomy x y with hlt | heq | hgt
    · rw [if_pos hlt]
      refine List.Pairwise.cons ?_ h
      intro b hb
      rcases List.mem_cons.mp hb with rfl | hb
      · exact hlt
      · exact lt_trans hlt (hy b hb)
    · rw [if_neg (heq ▸ lt_irrefl x), if_neg (heq ▸ lt_irrefl x)]
      exact h
    · rw [if_neg (asymm hgt), if_pos hgt]
      refine List.Pairwise.cons ?_ (ih hys)
      intro b hb
      rcases (mem_sortedInsert x b ys).mp hb with rfl | hb
      · exact hgt
      · exact hy b hb

theorem pairwise_sortDedup {α : Type} [LinearOrder α] (l : List α) :
    (sortDedup l).Pairwise (· < ·) := by
  induction l with
  | nil => simp [sortDedup]
  | cons x xs ih => exact pairwise_sortedInsert x (sortDedup xs) ih

/-- Value placed by `pivot` at cell `(t, c)`: the `target` of the long
row carrying that timestamp and item id, `NaN` when no such row
exists (pandas rejects duplicates before this lookup is used). -/
def cellLookup (rows : List LongRow) (t : ℤ) (c : String) : Option ℚ :=
  match rows.find? (fun r => r.timestamp = t ∧ r.item_id = c) with
  | some r => r.target
  | none => none

/-- Rows produced by `melt(id_vars=['timestamp'], var_name='item_id',
value_name='target')`: one block per value column, in column order,
each block running through the frame's rows in index order. -/
def meltRows (w : WideDF) : List LongRow :=
  w.cols.enum.flatMap (fun jc =>
    (w.dates.zip w.cells).map (fun p => ⟨p.1, p.2.getD jc.1 none, jc.2⟩))

/-- Embedding of `wide_to_tabpfn_format` (data_converter.py lines
13-67): an empty frame yields the empty long frame with the three
TabPFN columns; otherwise the index becomes a column (named after the
index, or `index` when unnamed), is renamed to `timestamp` when it is
`ds` or `index`, and the frame is melted.  When no column is named
`timestamp` at melt time — index named neither `ds`, `index` nor
`timestamp`, or a value column shadowing `timestamp` — pandas `melt`
raises, modelled as `none`. -/
def wide_to_tabpfn_format (wide_df : WideDF) : Option LongDF :=
  if wide_df.dates.isEmpty ∨ wide_df.cols.isEmpty then
    some { cols := ["timestamp", "target", "item_id"], rows := [] }
  else
    let firstCol := wide_df.indexName.getD "index"
    let tsName := if firstCol = "ds" ∨ firstCol = "index" then "timestamp" else firstCol
    if tsName = "timestamp" ∧ "timestamp" ∉ wide_df.cols then
      some { cols := ["timestamp", "target", "item_id"], rows := meltRows wide_df }
    else none

/-- Embedding of `df.pivot(index='timestamp', columns='item_id',
values='target')`: sorted unique timestamps as index, sorted unique
item ids as columns, each long row's target at its cell; raises on a
duplicated `(timestamp, item_id)` pair. -/
def pivotTable (rows : List LongRow) :
    Option (List ℤ × List String × List (List (Option ℚ))) :=
  if (rows.map (fun r => (r.timestamp, r.item_id))).Nodup then
    let ts := sortDedup (rows.map (fun r => r.timestamp))
    let ids := sortDedup (rows.map (fun r => r.item_id))
    some (ts, ids, ts.map (fun t => ids.map (fun c => cellLookup rows t c)))
  else none

/-- C9: `wide_to_tabpfn_format` applied to an empty DataFrame returns
an empty DataFrame with exactly the columns `timestamp`, `target`,
`item_id` in that order, rather than raising. -/
theorem wide_to_tabpfn_format_empty (w : WideDF) (h : w.dates = [] ∨ w.cols = []) :
    wide_to_tabpfn_format w = some ⟨["timestamp", "target", "item_id"], []⟩ := by
  rcases h with h | h <;> simp [wide_to_tabpfn_format, h]

/-- Witness for C9: the fully empty frame. -/
theorem wide_to_tabpfn_format_empty_witness :
    wide_to_tabpfn_format ⟨some "ds", [], [], []⟩ =
      some ⟨["timestamp", "target", "item_id"], []⟩ :=
  wide_to_tabpfn_format_empty ⟨some "ds", [], [], []⟩ (Or.inl rfl)

/-- One row of the monthly totals frame. -/
structure MonthlyRow where
  pieceDate : ℤ
  compteNum : String
  solde : ℚ
  deriving Repr, DecidableEq

/-- One row of the classification charges frame. -/
structure ClassRow where
  name : String
  type : String
  deriving Repr, DecidableEq

/-- Result of `get_account_type_prefixes` (account_classifier.py lines
72-131). -/
structure AccountTypePrefixes where
  fixed_expenses_prefixes : List String
  variable_expenses_prefixes : List String
  revenue_prefixes : List String
  untyped_forecastable_prefixes : List String
  deriving Repr, DecidableEq

/-- Embedding of `get_account_type_prefixes`: the names of the rows of
each classification type. -/
def get_account_type_prefixes (classification_charges : List ClassRow) :
    AccountTypePrefixes :=
  { fixed_expenses_prefixes :=
      (classification_charges.filter (fun r => r.type = "fix")).map (fun r => r.name),
    variable_expenses_prefixes :=
      (classification_charges.filter (fun r => r.type = "variable")).map (fun r => r.name),
    revenue_prefixes :=
      (classification_charges.filter (fun r => r.type = "revenue")).map (fun r => r.name),
    untyped_forecastable_prefixes :=
      (classification_charges.filter (fun r => r.type = "forecastable")).map (fun r => r.name) }

/-- Python `s.startswith(tuple(ps))`: true when some listed string
starts the string (over the character sequences). -/
def startsWithAny (s : String) (ps : List String) : Bool :=
  ps.any (fun p => p.data.isPrefixOf s.data)

/-- Result object of `preprocess_data` (preprocessing.py lines
20-46). -/
structure PreprocessingResult where
  data_wide_format : WideDF
  filtered_data_wide_format : WideDF
  forecastable_accounts : List String
  account_type_prefixes : AccountTypePrefixes
  deriving Repr, DecidableEq

/-- Embedding of `preprocess_data` (preprocessing.py lines 49-203):
pivot to wide format (`none` when the pivot raises on a duplicated
(date, account) pair), replace zeros by `NaN` when configured,
truncate to the cutoff date and name the index `ds`, blank the COVID
window unless COVID dummies are used, filter the columns by the four
prefix groups, and keep the columns with a non-null entry among the
last `active_window_months` rows. -/
def preprocess_data (monthly_totals : List MonthlyRow)
    (accounting_date_up_to_date : ℤ) (classification_charges : List ClassRow)
    (use_covid_dummies : Bool) (active_window_months : ℕ)
    (replace_zeros_with_nan : Bool) (covid_start covid_end : ℤ) :
    Option PreprocessingResult :=
  match pivotTable (monthly_totals.map (fun r =>
      ⟨r.pieceDate, some r.solde, r.compteNum⟩)) with
  | none => none
  | some (ts, ids, cells) =>
    let cells₂ := if replace_zeros_with_nan then
        cells.map (fun row => row.map (fun v =>
          match v with
          | some x => if x ≠ 0 then some x else none
          | none => none))
      else cells
    let keep := (ts.zip cells₂).filter (fun p => p.1 ≤ accounting_date_up_to_date)
    let rows₄ := if use_covid_dummies then keep else
        keep.map (fun p =>
          if covid_start ≤ p.1 ∧ p.1 ≤ covid_end then
            (p.1, p.2.map (fun _ => (none : Option ℚ)))
          else p)
    let dwf : WideDF := { indexName := some "ds", dates := rows₄.map Prod.fst,
                          cols := ids, cells := rows₄.map Prod.snd }
    let prefixes := get_account_type_prefixes classification_charges
    let keepCol : String → Bool := fun c =>
      startsWithAny c prefixes.fixed_expenses_prefixes ||
      startsWithAny c prefixes.variable_expenses_prefixes ||
      startsWithAny c prefixes.revenue_prefixes ||
      startsWithAny c prefixes.untyped_forecastable_prefixes
    let fcols := ids.filter keepCol
    let fcells := dwf.cells.map (fun row =>
      ((ids.zip row).filter (fun p => keepCol p.1)).map Prod.snd)
    let fwf : WideDF := { indexName := some "ds", dates := dwf.dates,
                          cols := fcols, cells := fcells }
    let lastRows := pdTail active_window_months fcells
    let forecastable := (fcols.enum.filter (fun jc =>
        lastRows.any (fun row => (row.getD jc.1 none).isSome))).map Prod.snd
    some { data_wide_format := dwf, filtered_data_wide_format := fwf,
           forecastable_accounts := forecastable,
           account_type_prefixes := prefixes }

/-- Boolean-mask column selection, as an existential over positions. -/
theorem mem_enum_filter_map {α : Type} (cols : List α) (p : ℕ → Bool) (c : α) :
    c ∈ (cols.enum.filter (fun jc => p jc.1)).map Prod.snd ↔
      ∃ j, ∃ (hj : j < cols.length), cols.get ⟨j, hj⟩ = c ∧ p j = true := by
  rw [List.mem_map]
  constructor
  · rintro ⟨jc, hjc, rfl⟩
    rw [List.mem_filter] at hjc
    obtain ⟨hmem, hp⟩ := hjc
    rw [List.mem_enum_iff_get?] at hmem
    obtain ⟨hj, hg⟩ := List.get?_eq_some.mp hmem
    exact ⟨jc.1, hj, hg, hp⟩
  · rintro ⟨j, hj, hc, hp⟩
    refine ⟨(j, c), ?_, rfl⟩
    rw [List.mem_filter]
    exact ⟨List.mem_enum_iff_get?.mpr (List.get?_eq_some.mpr ⟨hj, hc⟩), hp⟩

/-- Membership in the active-accounts list, unfolded to the claim's
existential form. -/
theorem forecastable_spec_iff {fcols : List String}
    {fcells : List (List (Option ℚ))} {window : ℕ} (c : String) :
    c ∈ ((fcols.enum.filter (fun jc =>
        (pdTail window fcells).any (fun row => (row.getD jc.1 none).isSome))).map
          Prod.snd) ↔
      ∃ j, ∃ (hj : j < fcols.length), fcols.get ⟨j, hj⟩ = c ∧
        ∃ row ∈ pdTail window fcells, (row.getD j none).isSome = true := by
  have h := mem_enum_filter_map fcols
    (fun j => (pdTail window fcells).any (fun row => (row.getD j none).isSome)) c
  constructor
  · intro hmem
    obtain ⟨j, hj, hc, hp⟩ := h.mp hmem
    exact ⟨j, hj, hc, List.any_eq_true.mp hp⟩
  · rintro ⟨j, hj, hc, row, hrow, hsome⟩
    exact h.mpr ⟨j, hj, hc, List.any_eq_true.mpr ⟨row, hrow, hsome⟩⟩

/-- C7: whenever `preprocess_data` returns, `forecastable_accounts`
holds exactly those columns of the type-filtered wide-format data with
at least one non-null value within the last `active_window_months`
rows; a column with no non-null value inside that window (all its
non-null values lying strictly before it) is excluded, and one with a
non-null value at the window boundary row (the first row of the
window) is included. -/
theorem preprocess_data_forecastable (monthly_totals : List MonthlyRow)
    (cutoff : ℤ) (cc : List ClassRow) (use_covid : Bool) (window : ℕ)
    (rz : Bool) (cs ce : ℤ) (res : PreprocessingResult)
    (h : preprocess_data monthly_totals cutoff cc use_covid window rz cs ce = some res) :
    (∀ c, c ∈ res.forecastable_accounts ↔
      ∃ j, ∃ (hj : j < res.filtered_data_wide_format.cols.length),
        res.filtered_data_wide_format.cols.get ⟨j, hj⟩ = c ∧
        ∃ row ∈ pdTail window res.filtered_data_wide_format.cells,
          (row.getD j none).isSome = true) ∧
    (∀ j (hj : j < res.filtered_data_wide_format.cols.length),
      (∀ row ∈ pdTail window res.filtered_data_wide_format.cells,
        (row.getD j none).isSome = false) →
      res.filtered_data_wide_format.cols.get ⟨j, hj⟩ ∉ res.forecastable_accounts) ∧
    (∀ j (hj : j < res.filtered_data_wide_format.cols.length)
      (hne : pdTail window res.filtered_data_wide_format.cells ≠ []),
      (((pdTail window res.filtered_data_wide_format.cells).head hne).getD j
          none).isSome = true →
      res.filtered_data_wide_format.cols.get ⟨j, hj⟩ ∈ res.forecastable_accounts) := by
  cases hpiv : pivotTable (monthly_totals.map (fun r =>
      ⟨r.pieceDate, some r.solde, r.compteNum⟩)) with
  | none =>
    unfold preprocess_data at h
    rw [hpiv] at h
    exact absurd h (by simp)
  | some triple =>
    obtain ⟨ts, ids, cells⟩ := triple
    have hidsnd : ids.Nodup := by
      unfold pivotTable at hpiv
      by_cases hnd : ((monthly_totals.map (fun r =>
          (⟨r.pieceDate, some r.solde, r.compteNum⟩ : LongRow))).map
            (fun r => (r.timestamp, r.item_id))).Nodup
      · rw [if_pos hnd] at hpiv
        dsimp only at hpiv
        injection hpiv with htriple
        have hsnd := congrArg (fun t => t.2.1) htriple
        dsimp only at hsnd
        rw [← hsnd]
        exact List.Pairwise.imp (fun hlt => ne_of_lt hlt) (pairwise_sortDedup _)
      · rw [if_neg hnd] at hpiv
        exact absurd hpiv (by simp)
    unfold preprocess_data at h
    rw [hpiv] at h
    dsimp only at h
    cases h
    dsimp only
    have hfnd : (ids.filter (fun c =>
        startsWithAny c (get_account_type_prefixes cc).fixed_expenses_prefixes ||
        startsWithAny c (get_account_type_prefixes cc).variable_expenses_prefixes ||
        startsWithAny c (get_account_type_prefixes cc).revenue_prefixes ||
        startsWithAny c (get_account_type_prefixes cc).untyped_forecastable_prefixes)).Nodup :=
      List.Nodup.filter _ hidsnd
    refine ⟨fun c => forecastable_spec_iff c, ?_, ?_⟩
    · intro j hj hall hmem
      obtain ⟨j', hj', hc, row, hrow, hsome⟩ := (forecastable_spec_iff _).mp hmem
      have hfin : (⟨j', hj'⟩ : Fin _) = ⟨j, hj⟩ :=
        (List.Nodup.get_inj_iff hfnd).mp hc
      have hjj : j' = j := congrArg Fin.val hfin
      subst hjj
      rw [hall row hrow] at hsome
      cases hsome
    · intro j hj hne hhead
      exact (forecastable_spec_iff _).mpr ⟨j, hj, rfl,
        (pdTail window _).head hne, List.head_mem hne, hhead⟩

theorem sortDedup_pair_self : sortDedup ["601000", "601000"] = ["601000"] := by
  have h1 : sortedInsert "601000" ["601000"] = ["601000"] := by
    unfold sortedInsert
    rw [if_neg (lt_irrefl _), if_neg (lt_irrefl _)]
  calc sortDedup ["601000", "601000"] = sortedInsert "601000" ["601000"] := rfl
    _ = ["601000"] := h1

theorem pivotTable_two_months :
    pivotTable [⟨0, some 5, "601000"⟩, ⟨1, some 7, "601000"⟩] =
      some ([0, 1], ["601000"], [[some 5], [some 7]]) := by
  unfold pivotTable
  rw [if_pos (by decide)]
  dsimp only
  rw [show ([⟨0, some 5, "601000"⟩, ⟨1, some 7, "601000"⟩] : List LongRow).map
      (fun r => r.item_id) = ["601000", "601000"] from rfl, sortDedup_pair_self]
  rw [show ([⟨0, some 5, "601000"⟩, ⟨1, some 7, "601000"⟩] : List LongRow).map
      (fun r => r.timestamp) = [0, 1] from rfl]
  rw [show sortDedup [(0 : ℤ), 1] = [0, 1] by
    unfold sortDedup
    rw [show List.foldr sortedInsert [] [(0 : ℤ), 1] = sortedInsert 0 [1] from rfl]
    unfold sortedInsert
    rw [if_pos (by decide)]]
  rfl

/-- Witness for C7: two months of one fixed-expense account with the
window set to the last month; the account has a value at the window
boundary row and is forecastable. -/
theorem preprocess_data_forecastable_witness :
    "601000" ∈ (PreprocessingResult.mk
      ⟨some "ds", [0, 1], ["601000"], [[some 5], [some 7]]⟩
      ⟨some "ds", [0, 1], ["601000"], [[some 5], [some 7]]⟩
      ["601000"] ⟨["6"], [], [], []⟩).forecastable_accounts := by
  have h : preprocess_data [⟨0, "601000", 5⟩, ⟨1, "601000", 7⟩] 10 [⟨"6", "fix"⟩]
      true 1 true 100 200 =
      some (PreprocessingResult.mk
        ⟨some "ds", [0, 1], ["601000"], [[some 5], [some 7]]⟩
        ⟨some "ds", [0, 1], ["601000"], [[some 5], [some 7]]⟩
        ["601000"] ⟨["6"], [], [], []⟩) := by
    unfold preprocess_data
    rw [show ([⟨0, "601000", 5⟩, ⟨1, "601000", 7⟩] : List MonthlyRow).map
        (fun r => (⟨r.pieceDate, some r.solde, r.compteNum⟩ : LongRow)) =
        [⟨0, some 5, "601000"⟩, ⟨1, some 7, "601000"⟩] from rfl, pivotTable_two_months]
    rfl
  exact (preprocess_data_forecastable [⟨0, "601000", 5⟩, ⟨1, "601000", 7⟩] 10
    [⟨"6", "fix"⟩] true 1 true 100 200 _ h).2.2 0 (by decide) (by decide) rfl

end TabPFN
